import Mathlib

/-!
# Verification of `test-files/c_sections.c`

A shallow embedding of the C translation unit: the file-scope objects
`number` and `limit`, the functions `f1`, `f2`, `f3`, `f4` and `main`, and
the part of the C library they use (`printf` with the format `"%d\n"`).

* The C type `int` is modelled by `Int`; the result of an `int` addition is
  brought back into the 32-bit two's-complement range by `wrapInt`.
* The observable program state is the mutable global `number` together with
  the characters written so far to standard output.
* Every C function takes the state and returns the state (paired with its
  result when it has one).
-/

namespace CSections

/-! ## Machine integers -/

/-- Smallest value of a 32-bit `int`. -/
def INT_MIN : Int := -2147483648

/-- Largest value of a 32-bit `int`. -/
def INT_MAX : Int := 2147483647

/-- Reduction of a mathematical integer to the 32-bit two's-complement
representative: the value modulo `2^32` lying in `[INT_MIN, INT_MAX]`. -/
def wrapInt (x : Int) : Int := (x + 2147483648) % 4294967296 - 2147483648

/-! ## Program state -/

/-- Observable state of the program: the global `int number` and the
characters written to standard output, oldest first. -/
structure State where
  number : Int
  out : List Char
  deriving DecidableEq

/-- File-scope constant `static const int limit = 10;`. -/
def limit : Int := 10

/-- State at program start: `int number = 52;` and nothing printed yet. -/
def initState : State := { number := 52, out := [] }

/-! ## The C library call used by `main` -/

/-- Decimal rendering of an `int` as done by the `%d` conversion. -/
def fmtDec (i : Int) : List Char :=
  if i < 0 then '-' :: Nat.toDigits 10 i.natAbs else Nat.toDigits 10 i.natAbs

/-- Effect of `printf("%d\n", i)`: the decimal digits of `i` and a line feed
are appended to standard output (the returned count is discarded by the
caller). -/
def printf_d_nl (i : Int) (s : State) : State :=
  { s with out := s.out ++ (fmtDec i ++ ['\n']) }

/-! ## The functions of the translation unit -/

/-- Embedding of `void f1(void) { }`. -/
def f1 (s : State) : State := s

/-- Embedding of `void f2(void) { }`. -/
def f2 (s : State) : State := s

/-- Embedding of `int f3(int value) { return value + 1; }`. -/
def f3 (value : Int) (s : State) : Int × State :=
  (wrapInt (value + 1), s)

/-- Embedding of `int f4(int value)`: `if (value > limit) return limit;`
followed by `return value;`. -/
def f4 (value : Int) (s : State) : Int × State :=
  if value > limit then
    (limit, s)
  else
    (value, s)

/-- The loop `for (int i = 0; i < 3; ++i) { printf("%d\n", i); }` of `main`,
entered with the current value of `i`. -/
def mainLoop (i : Int) (s : State) : State :=
  if i < 3 then
    mainLoop (wrapInt (i + 1)) (printf_d_nl i s)
  else
    s
termination_by (3 - i).toNat
decreasing_by
  simp only [wrapInt]
  omega

/-- Embedding of `int main(void)`: the loop from `i = 0`, the call `f1();`
and `return 0;`. -/
def main (s : State) : Int × State :=
  let s1 := mainLoop 0 s
  let s2 := f1 s1
  (0, s2)

/-! ## Sequences of calls -/

/-- One call of a function of the translation unit, with its argument. -/
inductive Call where
  | callF1 : Call
  | callF2 : Call
  | callF3 : Int → Call
  | callF4 : Int → Call
  | callMain : Call
  deriving DecidableEq

/-- State after performing one call (a returned value is dropped). -/
def runCall (c : Call) (s : State) : State :=
  match c with
  | .callF1 => f1 s
  | .callF2 => f2 s
  | .callF3 v => (f3 v s).2
  | .callF4 v => (f4 v s).2
  | .callMain => (main s).2

/-- State after performing a list of calls from left to right. -/
def runCalls (cs : List Call) (s : State) : State :=
  cs.foldl (fun st c => runCall c st) s

/-! ## Auxiliary facts -/

/-- Unfolding of the loop when the condition `i < 3` holds. -/
theorem mainLoop_step (i : Int) (s : State) (h : i < 3) :
    mainLoop i s = mainLoop (wrapInt (i + 1)) (printf_d_nl i s) := by
  rw [mainLoop, if_pos h]

/-- Unfolding of the loop when the condition `i < 3` fails. -/
theorem mainLoop_exit (i : Int) (s : State) (h : ¬ i < 3) :
    mainLoop i s = s := by
  rw [mainLoop, if_neg h]

/-- The loop entered at `i = 0` performs exactly the three `printf` calls for
`0`, `1` and `2`, in that order. -/
theorem mainLoop_zero (s : State) :
    mainLoop 0 s = printf_d_nl 2 (printf_d_nl 1 (printf_d_nl 0 s)) := by
  have e1 : wrapInt (0 + 1) = 1 := by decide
  have e2 : wrapInt (1 + 1) = 2 := by decide
  have e3 : wrapInt (2 + 1) = 3 := by decide
  rw [mainLoop_step 0 s (by decide), e1,
    mainLoop_step 1 _ (by decide), e2,
    mainLoop_step 2 _ (by decide), e3,
    mainLoop_exit 3 _ (by decide)]

/-- Closed form of the loop entered at `i = 0`. -/
theorem mainLoop_zero_out (s : State) :
    mainLoop 0 s = { s with out := s.out ++ "0\n1\n2\n".toList } := by
  rw [mainLoop_zero]
  simp [printf_d_nl, fmtDec, Nat.toDigits, Nat.toDigitsCore, Nat.digitChar]

/-- Closed form of `main`. -/
theorem main_eq (s : State) :
    main s = (0, { s with out := s.out ++ "0\n1\n2\n".toList }) := by
  simp only [main, f1, mainLoop_zero_out]

/-- No call changes `number`. -/
theorem runCall_number (c : Call) (s : State) :
    (runCall c s).number = s.number := by
  cases c with
  | callF1 => rfl
  | callF2 => rfl
  | callF3 v => rfl
  | callF4 v =>
    simp only [runCall, f4]
    split <;> rfl
  | callMain => simp only [runCall, main_eq]

/-- No sequence of calls changes `number`. -/
theorem runCalls_number (cs : List Call) (s : State) :
    (runCalls cs s).number = s.number := by
  induction cs generalizing s with
  | nil => rfl
  | cons c cs ih =>
    show (runCalls cs (runCall c s)).number = s.number
    rw [ih, runCall_number]

/-! ## The claims -/

/-- C1: for every integer `v` with `v ≤ 10` (the constant `limit`), `f4 v`
returns `v` unchanged; this covers `v = 10` and every negative `v`, so there
is no clamp on the lower side. -/
theorem f4_at_most_limit (v : Int) (s : State) (h : v ≤ 10) :
    (f4 v s).1 = v := by
  have hn : ¬ v > limit := by simp only [limit]; omega
  simp only [f4, if_neg hn]

/-- Instance of C1 at the boundary `v = 10`. -/
theorem f4_at_most_limit_witness :
    (10 : Int) ≤ 10 ∧ (f4 10 initState).1 = 10 :=
  ⟨by decide, f4_at_most_limit 10 initState (by decide)⟩

/-- C2: for every integer `v` with `v > 10` (the constant `limit`), `f4 v`
returns exactly `10`; the call only yields the clamped value, it reports
nothing (the state, standard output included, is as before). -/
theorem f4_above_limit (v : Int) (s : State) (h : v > 10) :
    (f4 v s).1 = 10 ∧ (f4 v s).1 = limit ∧ (f4 v s).2 = s := by
  have hp : v > limit := by simp only [limit]; omega
  simp only [f4, if_pos hp, and_self]
  exact ⟨rfl, trivial⟩

/-- Instance of C2 at `v = 11`. -/
theorem f4_above_limit_witness :
    (11 : Int) > 10 ∧
      ((f4 11 initState).1 = 10 ∧ (f4 11 initState).1 = limit ∧
        (f4 11 initState).2 = initState) :=
  ⟨by decide, f4_above_limit 11 initState (by decide)⟩

/-- C3: for every representable `int` value `v` with `v < INT_MAX` (so that
`v + 1` does not overflow), `f3 v` returns `v + 1`; in particular
`f3 0 = 1` and `f3 (-1) = 0`. -/
theorem f3_succ (v : Int) (s : State) (hlo : INT_MIN ≤ v) (hhi : v < INT_MAX) :
    (f3 v s).1 = v + 1 ∧ (f3 0 s).1 = 1 ∧ (f3 (-1) s).1 = 0 := by
  refine ⟨?_, ?_, ?_⟩
  rotate_left
  · show wrapInt (0 + 1) = 1
    decide
  · show wrapInt (-1 + 1) = 0
    decide
  simp only [INT_MIN, INT_MAX] at hlo hhi
  simp only [f3, wrapInt]
  omega

/-- Instance of C3 at `v = 41`. -/
theorem f3_succ_witness :
    (INT_MIN ≤ 41 ∧ (41 : Int) < INT_MAX) ∧
      ((f3 41 initState).1 = 41 + 1 ∧ (f3 0 initState).1 = 1 ∧
        (f3 (-1) initState).1 = 0) :=
  ⟨⟨by decide, by decide⟩, f3_succ 41 initState (by decide) (by decide)⟩

/-- C4: running `main` from the initial state writes exactly the characters
`"0\n1\n2\n"` to standard output and returns `0`; the output is already
complete when the loop ends (the call of `f1` adds nothing), and from any
state `main` appends exactly these characters to what was written before. -/
theorem main_prints_0_1_2 :
    main initState = (0, { number := 52, out := "0\n1\n2\n".toList }) ∧
      (main initState).1 = 0 ∧
      String.mk (main initState).2.out = "0\n1\n2\n" ∧
      (main initState).2 = mainLoop 0 initState ∧
      ∀ s : State, main s = (0, { s with out := s.out ++ "0\n1\n2\n".toList }) := by
  refine ⟨?_, ?_, ?_, ?_, main_eq⟩
  · rw [main_eq]; rfl
  · rw [main_eq]
  · rw [main_eq]; rfl
  · rfl

/-- C5: for every program state (value of `number` and contents of standard
output), `f1` and `f2` return with the state exactly as it was. -/
theorem f1_f2_no_effect (s : State) : f1 s = s ∧ f2 s = s :=
  ⟨rfl, rfl⟩

/-- C6: the global `number` is neither written nor read: it starts at `52`
and still holds `52` after `main` and after any sequence of calls of `f1`,
`f2`, `f3`, `f4` and `main`; every function leaves it as it found it; and
replacing the value of `number` changes neither a result nor the output of
any function (`f4` is determined by its argument and `limit = 10`). -/
theorem number_never_touched :
    initState.number = 52 ∧
      (main initState).2.number = 52 ∧
      (∀ cs : List Call, (runCalls cs initState).number = 52) ∧
      (∀ (s : State) (v : Int),
        (f1 s).number = s.number ∧ (f2 s).number = s.number ∧
        (f3 v s).2.number = s.number ∧ (f4 v s).2.number = s.number ∧
        (main s).2.number = s.number) ∧
      (∀ (s : State) (v n : Int),
        f1 { s with number := n } = { f1 s with number := n } ∧
        f2 { s with number := n } = { f2 s with number := n } ∧
        f3 v { s with number := n } = ((f3 v s).1, { (f3 v s).2 with number := n }) ∧
        f4 v { s with number := n } = ((f4 v s).1, { (f4 v s).2 with number := n }) ∧
        main { s with number := n } = ((main s).1, { (main s).2 with number := n })) ∧
      (∀ (s t : State) (v : Int),
        (f3 v s).1 = (f3 v t).1 ∧ (f4 v s).1 = (f4 v t).1 ∧
        (f4 v s).1 = if v > 10 then 10 else v) ∧
      limit = 10 := by
  refine ⟨rfl, ?_, ?_, ?_, ?_, ?_, rfl⟩
  · rw [main_eq]; rfl
  · intro cs
    rw [runCalls_number]; rfl
  · intro s v
    refine ⟨rfl, rfl, rfl, ?_, ?_⟩
    · simp only [f4]; split <;> rfl
    · rw [main_eq]
  · intro s v n
    refine ⟨rfl, rfl, rfl, ?_, ?_⟩
    · simp only [f4]; split <;> rfl
    · simp only [main_eq]
  · intro s t v
    refine ⟨rfl, ?_, ?_⟩
    · simp only [f4]; split <;> rfl
    · simp only [f4, limit]; split <;> rfl

/-- C7: `f3` has no overflow guard. It yields a value for every input and
leaves the state alone, and with `int` as 32-bit two's complement its result
is the wrapped value of `v + 1`: the one value in `[INT_MIN, INT_MAX]`
congruent to `v + 1` modulo `2^32`. On representable inputs this is
`v + 1`, except that `f3 INT_MAX = INT_MIN`. -/
theorem f3_wraps_unguarded (v : Int) (s : State) :
    (f3 v s).2 = s ∧
      INT_MIN ≤ (f3 v s).1 ∧ (f3 v s).1 ≤ INT_MAX ∧
      ((f3 v s).1 - (v + 1)) % 4294967296 = 0 ∧
      (∀ r : Int, INT_MIN ≤ r → r ≤ INT_MAX → (r - (v + 1)) % 4294967296 = 0 →
        r = (f3 v s).1) ∧
      (INT_MIN ≤ v → v ≤ INT_MAX →
        (f3 v s).1 = if v = INT_MAX then INT_MIN else v + 1) ∧
      (f3 INT_MAX s).1 = INT_MIN := by
  refine ⟨rfl, ?_, ?_, ?_, ?_, ?_, ?_⟩
  · simp only [f3, wrapInt, INT_MIN]; omega
  · simp only [f3, wrapInt, INT_MAX]; omega
  · simp only [f3, wrapInt]; omega
  · intro r hlo hhi hr
    simp only [INT_MIN, INT_MAX] at hlo hhi
    simp only [f3, wrapInt]
    omega
  · intro hlo hhi
    simp only [INT_MIN, INT_MAX] at hlo hhi
    simp only [f3, wrapInt, INT_MIN, INT_MAX]
    split <;> omega
  · show wrapInt (INT_MAX + 1) = INT_MIN
    decide

/-- C8: `f4` is idempotent: for every integer `v`, applying `f4` to the
result of `f4 v` gives that result again, every result of `f4` being at most
`10`. -/
theorem f4_idempotent (v : Int) (s : State) :
    (f4 (f4 v s).1 (f4 v s).2).1 = (f4 v s).1 ∧ (f4 v s).1 ≤ 10 := by
  by_cases h : v > limit
  · simp only [f4, if_pos h]
    exact ⟨rfl, by decide⟩
  · simp only [f4, if_neg h]
    simp only [limit] at h
    exact ⟨trivial, by omega⟩

/-- C9: `f4` is monotone: for all integers `a ≤ b`, `f4 a ≤ f4 b`, also
when `a ≤ 10 < b`. -/
theorem f4_monotone (a b : Int) (s t : State) (h : a ≤ b) :
    (f4 a s).1 ≤ (f4 b t).1 := by
  simp only [f4, limit]
  split <;> split <;> simp only <;> omega

/-- Instance of C9 with `a = 5 ≤ 10 < 11 = b`. -/
theorem f4_monotone_witness :
    (5 : Int) ≤ 11 ∧ (f4 5 initState).1 ≤ (f4 11 initState).1 :=
  ⟨by decide, f4_monotone 5 11 initState initState (by decide)⟩

end CSections
